import Mathlib

/-!
Verification of the databend metadata handlers, credential constructors,
tenant-quota interpreter and pipeline-executor invariants, as a shallow
embedding in Lean 4.
-/

namespace Databend

/-! Metadata types, embedded from `common_meta_types` as used by
`src/metasrv/src/executor/meta_handlers.rs`. -/

/-- A versioned value: sequence number plus payload (`SeqV<T>`). -/
structure SeqV (α : Type) where
  seq : Nat
  data : α
deriving DecidableEq

/-- Modelled from the spec: the metadata payload of a database is opaque to
the handlers; only its presence matters. Stands for `DatabaseMeta`. -/
structure DatabaseMeta where
  engine : String
deriving DecidableEq

/-- Modelled from the spec: the metadata payload of a table is opaque to
the handlers; only its presence matters. Stands for `TableMeta`. -/
structure TableMeta where
  engine : String
deriving DecidableEq

/-- Result of a linearizable `write` on the meta store: previous and
current versioned state, plus the id assigned to the entity (`Change<T>`). -/
structure Change (α : Type) where
  ident : Option Nat
  prev : Option (SeqV α)
  result : Option (SeqV α)
deriving DecidableEq

/-- `Change::unpack_data`: the previous and current payloads, versions
stripped. -/
def Change.unpack_data (c : Change α) : Option α × Option α :=
  (c.prev.map SeqV.data, c.result.map SeqV.data)

/-- `Change::unpack`: the previous and current versioned values. -/
def Change.unpack (c : Change α) : Option (SeqV α) × Option (SeqV α) :=
  (c.prev, c.result)

/-- Modelled from the spec: `Change::changed` reports whether the write
mutated state, i.e. whether previous and current state differ. -/
def Change.changed [DecidableEq α] (c : Change α) : Bool :=
  if c.prev = c.result then false else true

/-- `OkOrExist`: outcome of an add-if-absent write. -/
inductive OkOrExist (α : Type) where
  | okAdded (v : SeqV α)
  | existed (v : SeqV α)
deriving DecidableEq

/-- Whether an `OkOrExist` is the `Exists` variant. -/
def OkOrExist.isExisted : OkOrExist α → Bool
  | .okAdded _ => false
  | .existed _ => true

/-- `AddResult<T, u64>`: id of the entity plus add outcome. -/
structure AddResult (α : Type) where
  id : Option Nat
  res : OkOrExist α
deriving DecidableEq

/-- The error codes produced by the handlers in
`src/metasrv/src/executor/meta_handlers.rs`. -/
inductive ErrorCode where
  | DatabaseAlreadyExists (msg : String)
  | UnknownDatabase (msg : String)
  | TableAlreadyExists (msg : String)
  | UnknownTable (msg : String)
  | TableVersionMissMatch (msg : String)
  | MetaNodeInternalError (msg : String)
  | Other (msg : String)
deriving DecidableEq

/-- Outcome of a handler body: success, error, or a Rust panic
(`unwrap` / `expect` on a missing value). -/
inductive HandlerResult (α : Type) where
  | ok (a : α)
  | err (e : ErrorCode)
  | panicked (msg : String)
deriving DecidableEq

/-! Request and reply types. -/

structure CreateDatabaseReq where
  tenant : String
  db : String
  meta : DatabaseMeta
  if_not_exists : Bool
deriving DecidableEq

structure CreateDatabaseReply where
  database_id : Nat
deriving DecidableEq

structure DropDatabaseReq where
  tenant : String
  db : String
  if_exists : Bool
deriving DecidableEq

structure DropDatabaseReply
deriving DecidableEq

structure CreateTableReq where
  tenant : String
  db : String
  table : String
  if_not_exists : Bool
  table_meta : TableMeta
deriving DecidableEq

structure CreateTableReply where
  table_id : Nat
deriving DecidableEq

structure DropTableReq where
  tenant : String
  db : String
  table : String
  if_exists : Bool
deriving DecidableEq

structure DropTableReply
deriving DecidableEq

structure UpsertTableOptionReq where
  table_id : Nat
  seq : Nat
  option_key : String
  option_value : String
deriving DecidableEq

structure UpsertTableOptionReply
deriving DecidableEq

structure GetTableExtReq where
  tbl_id : Nat
deriving DecidableEq

/-- `TableIdent::new(table_id, version)`. -/
structure TableIdent where
  table_id : Nat
  version : Nat
deriving DecidableEq

def TableIdent.new (table_id version : Nat) : TableIdent :=
  ⟨table_id, version⟩

/-- Modelled from the spec: `TableInfo` as built by `TableInfo::new`,
recording the database name, table name, versioned identifier and
metadata passed to the constructor. -/
structure TableInfo where
  db_name : String
  table_name : String
  ident : TableIdent
  meta : TableMeta
deriving DecidableEq

def TableInfo.new (db_name table_name : String) (ident : TableIdent)
    (meta : TableMeta) : TableInfo :=
  ⟨db_name, table_name, ident, meta⟩

/-- Modelled from the spec: `DatabaseInfo` is returned opaquely by the
read-only handlers; its fields are never inspected by them. -/
structure DatabaseInfo where
  database_id : Nat
  db : String
deriving DecidableEq

/-! The handlers of `src/metasrv/src/executor/meta_handlers.rs`.
Each is embedded as a pure function of the request and of the meta
store's response (the `write` / `consistent_read` result), which the
source obtains by awaiting the meta node. -/

/-- `RequestHandler<CreateDatabaseReq>::handle` (meta_handlers.rs lines
57-98): after the write, take the db id from the change (panicking when
absent), and fail with `DatabaseAlreadyExists` when a previous value
exists and `if_not_exists` is false. -/
def createDatabaseHandle (req : CreateDatabaseReq)
    (writeRes : Except String (Change DatabaseMeta)) :
    HandlerResult CreateDatabaseReply :=
  match writeRes with
  | .error e => .err (ErrorCode.MetaNodeInternalError e)
  | .ok ch =>
    match ch.ident with
    | none => .panicked "Some(db_id)"
    | some db_id =>
      let prev := (Change.unpack_data ch).1
      if prev.isSome && !req.if_not_exists then
        .err (ErrorCode.DatabaseAlreadyExists (req.db ++ " database exists"))
      else
        .ok ⟨db_id⟩

/-- `RequestHandler<GetDatabaseReq>::handle` (lines 100-106): pass the
`consistent_read` result through unchanged. -/
def getDatabaseHandle (readRes : Except ErrorCode DatabaseInfo) :
    Except ErrorCode DatabaseInfo :=
  match readRes with
  | .error e => .error e
  | .ok res => .ok res

/-- `RequestHandler<DropDatabaseReq>::handle` (lines 108-140): succeed
when a previous value existed or `if_exists` is set, else
`UnknownDatabase`. -/
def dropDatabaseHandle (req : DropDatabaseReq)
    (writeRes : Except String (Change DatabaseMeta)) :
    HandlerResult DropDatabaseReply :=
  match writeRes with
  | .error e => .err (ErrorCode.MetaNodeInternalError e)
  | .ok ch =>
    let prev := (Change.unpack_data ch).1
    if prev.isSome || req.if_exists then
      .ok ⟨⟩
    else
      .err (ErrorCode.UnknownDatabase ("database not found: " ++ req.db))

/-- `RequestHandler<CreateTableReq>::handle` (lines 142-185): fail with
`TableAlreadyExists` when the add result is `Exists` and `if_not_exists`
is false; otherwise reply with the table id (panicking when absent). -/
def createTableHandle (req : CreateTableReq)
    (writeRes : Except String (AddResult TableMeta)) :
    HandlerResult CreateTableReply :=
  match writeRes with
  | .error e => .err (ErrorCode.MetaNodeInternalError e)
  | .ok add_res =>
    if add_res.res.isExisted && !req.if_not_exists then
      .err (ErrorCode.TableAlreadyExists ("table exists: " ++ req.table))
    else
      match add_res.id with
      | none => .panicked "Option::unwrap on None"
      | some tid => .ok ⟨tid⟩

/-- `RequestHandler<DropTableReq>::handle` (lines 187-222): succeed when
a previous value existed or `if_exists` is set, else `UnknownTable`. -/
def dropTableHandle (req : DropTableReq)
    (writeRes : Except String (Change TableMeta)) :
    HandlerResult DropTableReply :=
  match writeRes with
  | .error e => .err (ErrorCode.MetaNodeInternalError e)
  | .ok ch =>
    let prev := (Change.unpack ch).1
    if prev.isSome || req.if_exists then
      .ok ⟨⟩
    else
      .err (ErrorCode.UnknownTable
        ("Unknown table: \x27" ++ req.table ++ "\x27"))

/-- `RequestHandler<GetTableReq>::handle` (lines 254-260): pass the
`consistent_read` result through unchanged. -/
def getTableHandle (readRes : Except ErrorCode TableInfo) :
    Except ErrorCode TableInfo :=
  match readRes with
  | .error e => .error e
  | .ok res => .ok res

/-- `RequestHandler<GetTableExtReq>::handle` (lines 262-281): look the
table up by id; on `Some` build a `TableInfo` with empty database and
table names and ident `TableIdent::new(tbl_id, seq)`; on `None` fail
with `UnknownTable` naming the id. -/
def getTableExtHandle (act : GetTableExtReq)
    (lookupRes : Except ErrorCode (Option (SeqV TableMeta))) :
    Except ErrorCode TableInfo :=
  match lookupRes with
  | .error e => .error e
  | .ok result =>
    match result with
    | some table =>
      .ok (TableInfo.new "" "" (TableIdent.new act.tbl_id table.seq)
        table.data)
    | none =>
      .error (ErrorCode.UnknownTable
        ("table of id " ++ toString act.tbl_id ++ " not found"))

/-- `RequestHandler<ListDatabaseReq>::handle` (lines 283-292): pass the
`consistent_read` result through unchanged. -/
def listDatabaseHandle (readRes : Except ErrorCode (List DatabaseInfo)) :
    Except ErrorCode (List DatabaseInfo) :=
  match readRes with
  | .error e => .error e
  | .ok res => .ok res

/-- `RequestHandler<ListTableReq>::handle` (lines 294-300): pass the
`consistent_read` result through unchanged. -/
def listTableHandle (readRes : Except ErrorCode (List TableInfo)) :
    Except ErrorCode (List TableInfo) :=
  match readRes with
  | .error e => .error e
  | .ok res => .ok res

/-- `RequestHandler<UpsertTableOptionReq>::handle` (lines 302-331): when
the write reports no change, unwrap previous/current state (panicking
when absent) and fail with `TableVersionMissMatch` carrying the requested
and current versions; otherwise reply Ok. -/
def upsertTableOptionHandle (req : UpsertTableOptionReq)
    (writeRes : Except String (Change TableMeta)) :
    HandlerResult UpsertTableOptionReply :=
  match writeRes with
  | .error e => .err (ErrorCode.MetaNodeInternalError e)
  | .ok ch =>
    if !ch.changed then
      match (Change.unpack ch).1, (Change.unpack ch).2 with
      | some prev, some _ =>
        .err (ErrorCode.TableVersionMissMatch
          ("targeting version " ++ toString req.seq ++ ", current version "
            ++ toString prev.seq))
      | _, _ => .panicked "Change::unwrap on None"
    else
      .ok ⟨⟩

/-! Credentials, embedded from `src/common/dal2/src/credential.rs`. -/

/-- The `Credential` enum: HTTP basic auth, access-key/secret-key pair,
or static API token. -/
inductive Credential where
  | Basic (username : String) (password : String)
  | HMAC (access_key_id : String) (secret_access_key : String)
  | Token (token : String)
deriving DecidableEq

/-- `Credential::basic`. -/
def Credential.basic (username password : String) : Credential :=
  Credential.Basic username password

/-- `Credential::hmac`. -/
def Credential.hmac (access_key_id secret_access_key : String) : Credential :=
  Credential.HMAC access_key_id secret_access_key

/-- `Credential::token`. -/
def Credential.token (token : String) : Credential :=
  Credential.Token token

/-! Tenant-quota interpreter, embedded from
`src/query/src/interpreters/interpreter_show_tenant_quota.rs`. -/

/-- Modelled from the spec: the quota record returned by the tenant-quota
API, with the four u32 counters read by the interpreter. -/
structure TenantQuota where
  max_databases : Nat
  max_tables_per_database : Nat
  max_stages : Nat
  max_files_per_stage : Nat
deriving DecidableEq

/-- The data types appearing in schemas built by the embedded code. -/
inductive DataTypeKind where
  | uint32
deriving DecidableEq

/-- `DataField::new(name, data_type)`. -/
structure DataField where
  name : String
  data_type : DataTypeKind
deriving DecidableEq

/-- A `DataBlock`: a schema plus one column of values per field (values
as naturals; all columns here are u32). -/
structure DataBlock where
  schema : List DataField
  columns : List (List Nat)
deriving DecidableEq

/-- `ShowTenantQuotaInterpreter::name`. -/
def showTenantQuotaName : String := "ShowTenantQuotaInterpreter"

/-- `ShowTenantQuotaInterpreter::execute` (lines 47-70), as a function of
the tenant-quota API response: build the four-field u32 schema, one block
with one value per column, and return a stream of exactly that block. -/
def showTenantQuotaExecute (quotaRes : Except ErrorCode TenantQuota) :
    Except ErrorCode (List DataBlock) :=
  match quotaRes with
  | .error e => .error e
  | .ok quota =>
    let schema : List DataField :=
      [⟨"max_databases", DataTypeKind.uint32⟩,
       ⟨"max_tables_per_database", DataTypeKind.uint32⟩,
       ⟨"max_stages", DataTypeKind.uint32⟩,
       ⟨"max_files_per_stage", DataTypeKind.uint32⟩]
    let block : DataBlock :=
      ⟨schema,
       [[quota.max_databases],
        [quota.max_tables_per_database],
        [quota.max_stages],
        [quota.max_files_per_stage]]⟩
    .ok [block]

/-! Pipeline executor model. The executor sources referenced by
`src/query/src/pipelines/new/executor/mod.rs` (pipeline_executor,
exector_graph, executor_tasks, ...) are not present in the tree, so the
Edge and per-processor running-flag semantics are modelled from the
spec. -/

/-- Modelled from the spec: an Edge is a single-slot, flow-controlled
channel; it holds an optional queued data item (capacity 1) and a
finished flag. The item buffer is a list so that the capacity bound is a
proved invariant, not a typing artifact. -/
structure EdgeState (α : Type) where
  items : List α
  finished : Bool
deriving DecidableEq

/-- An edge starts empty and unfinished. -/
def EdgeState.init : EdgeState α := ⟨[], false⟩

/-- Modelled from the spec: `try_push(item)` fails if the edge is full;
a producer cannot push into a full edge. -/
def EdgeState.try_push (e : EdgeState α) (x : α) : Option (EdgeState α) :=
  if e.items.isEmpty then some ⟨[x], e.finished⟩ else none

/-- Modelled from the spec: `try_pull()` fails if the edge is empty. -/
def EdgeState.try_pull (e : EdgeState α) : Option (α × EdgeState α) :=
  match e.items with
  | [] => none
  | x :: rest => some (x, ⟨rest, e.finished⟩)

/-- Modelled from the spec: `mark_finished()`, idempotent and monotone. -/
def EdgeState.mark_finished (e : EdgeState α) : EdgeState α :=
  ⟨e.items, true⟩

/-- The buffered state of a graph with `n` edges: one `EdgeState` per
edge index. -/
def GraphBuf (n : Nat) (α : Type) : Type := Fin n → EdgeState α

/-- All edges empty and unfinished. -/
def GraphBuf.init (n : Nat) (α : Type) : GraphBuf n α :=
  fun _ => EdgeState.init

/-- Modelled from the spec: a scheduler step touches one edge — a
successful `try_push` by its producer, a successful `try_pull` by its
consumer, or `mark_finished`. -/
inductive GraphStep (n : Nat) (α : Type) :
    GraphBuf n α → GraphBuf n α → Prop where
  | push (s : GraphBuf n α) (e : Fin n) (x : α) (e2 : EdgeState α)
      (h : (s e).try_push x = some e2) :
      GraphStep n α s (Function.update s e e2)
  | pull (s : GraphBuf n α) (e : Fin n) (x : α) (e2 : EdgeState α)
      (h : (s e).try_pull = some (x, e2)) :
      GraphStep n α s (Function.update s e e2)
  | finish (s : GraphBuf n α) (e : Fin n) :
      GraphStep n α s (Function.update s e ((s e).mark_finished))

/-- States reachable from the all-empty graph by scheduler steps. -/
def GraphReachable (n : Nat) (α : Type) (s : GraphBuf n α) : Prop :=
  Relation.ReflTransGen (GraphStep n α) (GraphBuf.init n α) s

/-- Total number of data items buffered across all edges. -/
def totalBuffered (s : GraphBuf n α) : Nat :=
  Finset.univ.sum (fun e => ((s e).items).length)

/-! Worker / running-flag model for the mutual-exclusion invariant. -/

/-- Modelled from the spec: the executor's ownership state — for every
processor, which worker (if any) holds its running flag; for every
worker, which processor (if any) it is currently driving with
`run_step`. -/
structure ExecState where
  flag : Nat → Option Nat
  task : Nat → Option Nat

/-- Initially no flag is held and every worker is idle. -/
def ExecState.init : ExecState :=
  ⟨fun _ => none, fun _ => none⟩

/-- Modelled from the spec: worker transitions. An idle worker may
acquire a processor only when its running flag is free (the pop-task
check: skip/drop if already running); a worker driving a processor may
finish its `run_step` and release the flag. -/
inductive ExecStep : ExecState → ExecState → Prop where
  | acquire (s : ExecState) (w p : Nat)
      (hflag : s.flag p = none) (hidle : s.task w = none) :
      ExecStep s ⟨Function.update s.flag p (some w),
                  Function.update s.task w (some p)⟩
  | release (s : ExecState) (w p : Nat) (h : s.task w = some p) :
      ExecStep s ⟨Function.update s.flag p none,
                  Function.update s.task w none⟩

/-- States reachable from the idle executor. -/
def ExecReachable (s : ExecState) : Prop :=
  Relation.ReflTransGen ExecStep ExecState.init s

/-- The inductive invariant: a worker driving a processor holds that
processor's running flag. -/
def ExecInv (s : ExecState) : Prop :=
  ∀ w p, s.task w = some p → s.flag p = some w

/-! Theorems. -/

/-- Claim C1: `CreateDatabase` fails with `DatabaseAlreadyExists` exactly
when the change carries a previous value and `if_not_exists` is false;
otherwise it replies with the database id taken from the change. In
particular a second identical call (whose write returns a previous
value) fails while the first (no previous value) succeeded. -/
theorem create_database_c1 :
    (∀ (tenant db : String) (meta : DatabaseMeta) (db_id : Nat)
        (p : SeqV DatabaseMeta) (result : Option (SeqV DatabaseMeta)),
      createDatabaseHandle ⟨tenant, db, meta, false⟩
          (.ok ⟨some db_id, some p, result⟩) =
        .err (ErrorCode.DatabaseAlreadyExists (db ++ " database exists"))) ∧
    (∀ (req : CreateDatabaseReq) (db_id : Nat)
        (result : Option (SeqV DatabaseMeta)),
      createDatabaseHandle req (.ok ⟨some db_id, none, result⟩) =
        .ok ⟨db_id⟩) ∧
    (∀ (tenant db : String) (meta : DatabaseMeta) (db_id : Nat)
        (prev result : Option (SeqV DatabaseMeta)),
      createDatabaseHandle ⟨tenant, db, meta, true⟩
          (.ok ⟨some db_id, prev, result⟩) =
        .ok ⟨db_id⟩) := by
  refine ⟨fun tenant db meta db_id p result => rfl,
          fun req db_id result => rfl,
          fun tenant db meta db_id prev result => ?_⟩
  cases prev <;> rfl

/-- Claim C2: `UpsertTableOptions` replies Ok exactly when the write
reports a change; when it reports no change the handler returns a
`TableVersionMissMatch` error carrying the requested version and the
current (previous) version. -/
theorem upsert_table_option_c2 :
    (∀ (req : UpsertTableOptionReq) (ch : Change TableMeta),
      upsertTableOptionHandle req (.ok ch) = .ok ⟨⟩ ↔ ch.changed = true) ∧
    (∀ (req : UpsertTableOptionReq) (ident : Option Nat)
        (p : SeqV TableMeta),
      upsertTableOptionHandle req (.ok ⟨ident, some p, some p⟩) =
        .err (ErrorCode.TableVersionMissMatch
          ("targeting version " ++ toString req.seq ++ ", current version "
            ++ toString p.seq))) := by
  constructor
  · intro req ch
    cases hch : ch.changed
    · simp only [upsertTableOptionHandle, hch, Bool.not_false, if_true]
      constructor
      · intro h
        split at h <;> exact HandlerResult.noConfusion h
      · intro h
        exact Bool.noConfusion h
    · simp [upsertTableOptionHandle, hch]
  · intro req ident p
    simp [upsertTableOptionHandle, Change.changed, Change.unpack]

/-- Claim C2 witness: a concrete changed write yields Ok. -/
theorem upsert_table_option_c2_witness :
    upsertTableOptionHandle ⟨1, 5, "k", "v"⟩
        (.ok ⟨some 1, some ⟨1, ⟨"e"⟩⟩, some ⟨2, ⟨"e"⟩⟩⟩) = .ok ⟨⟩ :=
  (upsert_table_option_c2.1 ⟨1, 5, "k", "v"⟩
    ⟨some 1, some ⟨1, ⟨"e"⟩⟩, some ⟨2, ⟨"e"⟩⟩⟩).mpr (by decide)

/-- Claim C3: `DropDatabase` replies Ok exactly when the database existed
before the write or `if_exists` is set; otherwise it returns
`UnknownDatabase`. -/
theorem drop_database_c3 :
    (∀ (req : DropDatabaseReq) (ch : Change DatabaseMeta),
      dropDatabaseHandle req (.ok ch) = .ok ⟨⟩ ↔
        ch.prev.isSome = true ∨ req.if_exists = true) ∧
    (∀ (tenant db : String) (ident : Option Nat)
        (result : Option (SeqV DatabaseMeta)),
      dropDatabaseHandle ⟨tenant, db, false⟩ (.ok ⟨ident, none, result⟩) =
        .err (ErrorCode.UnknownDatabase ("database not found: " ++ db))) := by
  constructor
  · intro req ch
    obtain ⟨tenant, db, ifex⟩ := req
    obtain ⟨ident, prev, result⟩ := ch
    cases ifex <;> cases prev <;>
      simp [dropDatabaseHandle, Change.unpack_data]
  · intro tenant db ident result
    rfl

/-- Claim C3 witness: dropping an existing database succeeds. -/
theorem drop_database_c3_witness :
    dropDatabaseHandle ⟨"t", "d", false⟩
        (.ok ⟨some 1, some ⟨1, ⟨"e"⟩⟩, none⟩) = .ok ⟨⟩ :=
  (drop_database_c3.1 ⟨"t", "d", false⟩
    ⟨some 1, some ⟨1, ⟨"e"⟩⟩, none⟩).mpr (Or.inl rfl)

/-- Claim C4: `CreateTable` fails with `TableAlreadyExists` exactly when
the add result reports the table existed and `if_not_exists` is false,
and otherwise replies with the table id of the `AddResult`; `DropTable`
replies Ok exactly when the table existed or `if_exists` is set, and
returns `UnknownTable` otherwise. -/
theorem tables_ddl_c4 :
    (∀ (tenant db table : String) (meta : TableMeta) (id : Option Nat)
        (v : SeqV TableMeta),
      createTableHandle ⟨tenant, db, table, false, meta⟩
          (.ok ⟨id, .existed v⟩) =
        .err (ErrorCode.TableAlreadyExists ("table exists: " ++ table))) ∧
    (∀ (tenant db table : String) (meta : TableMeta) (tid : Nat)
        (v : SeqV TableMeta),
      createTableHandle ⟨tenant, db, table, true, meta⟩
          (.ok ⟨some tid, .existed v⟩) = .ok ⟨tid⟩) ∧
    (∀ (req : CreateTableReq) (tid : Nat) (v : SeqV TableMeta),
      createTableHandle req (.ok ⟨some tid, .okAdded v⟩) = .ok ⟨tid⟩) ∧
    (∀ (req : DropTableReq) (ch : Change TableMeta),
      dropTableHandle req (.ok ch) = .ok ⟨⟩ ↔
        ch.prev.isSome = true ∨ req.if_exists = true) ∧
    (∀ (tenant db table : String) (ident : Option Nat)
        (result : Option (SeqV TableMeta)),
      dropTableHandle ⟨tenant, db, table, false⟩
          (.ok ⟨ident, none, result⟩) =
        .err (ErrorCode.UnknownTable
          ("Unknown table: \x27" ++ table ++ "\x27"))) := by
  refine ⟨fun tenant db table meta id v => rfl,
          fun tenant db table meta tid v => rfl,
          fun req tid v => rfl, ?_,
          fun tenant db table ident result => rfl⟩
  intro req ch
  obtain ⟨tenant, db, table, ifex⟩ := req
  obtain ⟨ident, prev, result⟩ := ch
  cases ifex <;> cases prev <;>
    simp [dropTableHandle, Change.unpack]

/-- Claim C4 witness: dropping an existing table succeeds. -/
theorem tables_ddl_c4_witness :
    dropTableHandle ⟨"t", "d", "tb", false⟩
        (.ok ⟨some 1, some ⟨1, ⟨"e"⟩⟩, none⟩) = .ok ⟨⟩ :=
  (tables_ddl_c4.2.2.2.1 ⟨"t", "d", "tb", false⟩
    ⟨some 1, some ⟨1, ⟨"e"⟩⟩, none⟩).mpr (Or.inl rfl)

/-- Claim C5: the four read-only handlers return exactly the
`consistent_read` result: success values pass through unmodified and
errors propagate unchanged. -/
theorem read_passthrough_c5 :
    (∀ r, getDatabaseHandle r = r) ∧ (∀ r, getTableHandle r = r) ∧
    (∀ r, listDatabaseHandle r = r) ∧ (∀ r, listTableHandle r = r) := by
  refine ⟨?_, ?_, ?_, ?_⟩ <;> intro r <;> cases r <;> rfl

/-- Claim C8: the tenant-quota interpreter is named
"ShowTenantQuotaInterpreter" and, for every quota value, returns a stream
of exactly one block whose schema is the four u32 fields in order and
whose columns each hold the single corresponding quota value. -/
theorem show_tenant_quota_c8 :
    showTenantQuotaName = "ShowTenantQuotaInterpreter" ∧
    ∀ q : TenantQuota,
      showTenantQuotaExecute (.ok q) =
        .ok [⟨[⟨"max_databases", DataTypeKind.uint32⟩,
              ⟨"max_tables_per_database", DataTypeKind.uint32⟩,
              ⟨"max_stages", DataTypeKind.uint32⟩,
              ⟨"max_files_per_stage", DataTypeKind.uint32⟩],
             [[q.max_databases], [q.max_tables_per_database],
              [q.max_stages], [q.max_files_per_stage]]⟩] :=
  ⟨rfl, fun _ => rfl⟩

/-- Claim C9: the three credential constructors are total and return
exactly the corresponding variant with the argument strings stored
unmodified. -/
theorem credential_constructors_c9 :
    ∀ (username password access_key_id secret_access_key tok : String),
      Credential.basic username password =
          Credential.Basic username password ∧
      Credential.hmac access_key_id secret_access_key =
          Credential.HMAC access_key_id secret_access_key ∧
      Credential.token tok = Credential.Token tok :=
  fun _ _ _ _ _ => ⟨rfl, rfl, rfl⟩

/-- Claim C10: `GetTableExt` succeeds exactly when the lookup by id
yields a value, returning a `TableInfo` with empty database and table
names and ident `TableIdent::new(tbl_id, seq)`; on a missing table it
returns `UnknownTable` naming the requested id. -/
theorem get_table_ext_c10 :
    (∀ (act : GetTableExtReq) (table : SeqV TableMeta),
      getTableExtHandle act (.ok (some table)) =
        .ok (TableInfo.new "" ""
          (TableIdent.new act.tbl_id table.seq) table.data)) ∧
    (∀ (i : TableIdent) (m : TableMeta),
      TableInfo.new "" "" i m = ⟨"", "", i, m⟩) ∧
    (∀ act : GetTableExtReq,
      getTableExtHandle act (.ok none) =
        .error (ErrorCode.UnknownTable
          ("table of id " ++ toString act.tbl_id ++ " not found"))) :=
  ⟨fun _ _ => rfl, fun _ _ => rfl, fun _ => rfl⟩

/-- One scheduler step preserves the per-edge capacity bound: pushes
only fill an empty edge, pulls strictly shrink, finishing leaves the
buffer alone. -/
theorem edge_step_items_le_one (n : Nat) (α : Type)
    (s s2 : GraphBuf n α) (hstep : GraphStep n α s s2)
    (ih : ∀ e, ((s e).items).length ≤ 1) :
    ∀ e, ((s2 e).items).length ≤ 1 := by
  cases hstep with
  | push e x e2 hp =>
    intro e2'
    by_cases heq : e2' = e
    · subst heq
      rw [Function.update_same]
      unfold EdgeState.try_push at hp
      split at hp
      · injection hp with hp
        subst hp
        simp
      · exact Option.noConfusion hp
    · rw [Function.update_noteq heq]
      exact ih e2'
  | pull e x e2 hp =>
    intro e2'
    by_cases heq : e2' = e
    · subst heq
      rw [Function.update_same]
      have hl := ih e2'
      unfold EdgeState.try_pull at hp
      rcases hitems : (s e2').items with _ | ⟨y, rest⟩
      · rw [hitems] at hp
        exact Option.noConfusion hp
      · rw [hitems] at hp
        injection hp with hp
        rw [Prod.mk.injEq] at hp
        obtain ⟨hx, he⟩ := hp
        rw [← he]
        rw [hitems] at hl
        simp only [List.length_cons] at hl
        show rest.length ≤ 1
        omega
    · rw [Function.update_noteq heq]
      exact ih e2'
  | finish e =>
    intro e2'
    by_cases heq : e2' = e
    · subst heq
      rw [Function.update_same]
      exact ih e2'
    · rw [Function.update_noteq heq]
      exact ih e2'

/-- Every edge of a reachable graph state buffers at most one item. -/
theorem edge_items_le_one (n : Nat) (α : Type) (s : GraphBuf n α)
    (h : GraphReachable n α s) : ∀ e, ((s e).items).length ≤ 1 := by
  induction h with
  | refl =>
    intro e
    simp [GraphBuf.init, EdgeState.init]
  | tail hab hbc ih =>
    exact edge_step_items_le_one n α _ _ hbc ih

/-- Claim C6: in every reachable state of the single-slot edge model,
each edge buffers at most one data item, and the total number of
buffered items across all edges never exceeds the number of edges. -/
theorem backpressure_bound_c6 (n : Nat) (α : Type) (s : GraphBuf n α)
    (h : GraphReachable n α s) :
    (∀ e, ((s e).items).length ≤ 1) ∧ totalBuffered s ≤ n := by
  have hb := edge_items_le_one n α s h
  refine ⟨hb, ?_⟩
  calc totalBuffered s ≤ (Finset.univ : Finset (Fin n)).card • 1 :=
        Finset.sum_le_card_nsmul Finset.univ _ 1 (fun e _ => hb e)
    _ = n := by simp

/-- Claim C6 witness: after one successful push on a two-edge graph the
total stays within the bound. -/
theorem backpressure_bound_c6_witness :
    totalBuffered (Function.update (GraphBuf.init 2 Nat) 0
      (⟨[7], false⟩ : EdgeState Nat)) ≤ 2 :=
  (backpressure_bound_c6 2 Nat
    (Function.update (GraphBuf.init 2 Nat) 0 (⟨[7], false⟩ : EdgeState Nat))
    (Relation.ReflTransGen.single
      (GraphStep.push (GraphBuf.init 2 Nat) 0 7 ⟨[7], false⟩ rfl))).2

/-- One executor step preserves the flag invariant. -/
theorem exec_step_inv (s s2 : ExecState) (hstep : ExecStep s s2)
    (ih : ExecInv s) : ExecInv s2 := by
  cases hstep with
  | acquire w p hflag hidle =>
    intro w2 p2 hw2
    simp only [] at hw2 ⊢
    by_cases hww : w2 = w
    · subst hww
      rw [Function.update_same] at hw2
      injection hw2 with hp2
      subst hp2
      rw [Function.update_same]
    · rw [Function.update_noteq hww] at hw2
      have hf := ih w2 p2 hw2
      by_cases hpp : p2 = p
      · subst hpp
        rw [hflag] at hf
        exact Option.noConfusion hf
      · rw [Function.update_noteq hpp]
        exact hf
  | release w p htask =>
    intro w2 p2 hw2
    simp only [] at hw2 ⊢
    by_cases hww : w2 = w
    · subst hww
      rw [Function.update_same] at hw2
      exact Option.noConfusion hw2
    · rw [Function.update_noteq hww] at hw2
      have hf := ih w2 p2 hw2
      by_cases hpp : p2 = p
      · subst hpp
        have hfw := ih w p2 htask
        rw [hfw] at hf
        injection hf with hf
        exact absurd hf.symm hww
      · rw [Function.update_noteq hpp]
        exact hf

/-- Reachable executor states satisfy the flag invariant: a worker
driving a processor holds that processor's running flag. -/
theorem exec_inv_of_reachable (s : ExecState) (h : ExecReachable s) :
    ExecInv s := by
  induction h with
  | refl =>
    intro w p hw
    exact Option.noConfusion hw
  | tail hab hbc ih =>
    exact exec_step_inv _ _ hbc ih

/-- Claim C7: in every reachable executor state, no two workers drive
the same processor at the same instant — at most one worker holds a
processor's running flag. -/
theorem mutual_exclusion_c7 (s : ExecState) (h : ExecReachable s)
    (w1 w2 p : Nat) (h1 : s.task w1 = some p) (h2 : s.task w2 = some p) :
    w1 = w2 := by
  have hf1 := exec_inv_of_reachable s h w1 p h1
  have hf2 := exec_inv_of_reachable s h w2 p h2
  exact Option.some.inj (hf1.symm.trans hf2)

/-- Claim C7 witness: after a single acquire, only worker 0 drives
processor 0. -/
theorem mutual_exclusion_c7_witness : (0 : Nat) = 0 :=
  mutual_exclusion_c7
    ⟨Function.update (ExecState.init).flag 0 (some 0),
     Function.update (ExecState.init).task 0 (some 0)⟩
    (Relation.ReflTransGen.single
      (ExecStep.acquire ExecState.init 0 0 rfl rfl))
    0 0 0 (by simp) (by simp)

end Databend
